import Mathlib

/-!
Verification of the saga_market_order repository (Go, event-sourced saga).

This file embeds the repository's data model and operations in Lean:

* the Order aggregate of package order (src/domain/orderbook/aggregate.go,
  third document section, and src/domain/order/events.go);
* the Position aggregate events (src/domain/position/events.go); the Position
  state machine itself is absent from the sources, so its commands are
  modelled from the spec (§3, §4.3);
* the aggregate store and the position repository deserializers
  (src/application/aggregates/aggregate_store.go,
  src/infrastructure/repository/position_repository.go);
* the two variants of CompleteOrderAndUpdatePositionUseCase.Execute
  (src/application/usecases/complete_order_and_update_position.go and
  src/unnamed/part_003);
* the four step handlers of OrderSagaRefactored (src/unnamed/part_007,
  part_006, src/application/saga/swap.go) together with the compensation
  functions.

Amounts and prices (float64 in Go) are embedded as rationals; timestamps as
naturals; generated UUIDs and clock reads are passed in as explicit
parameters.  Handlers are embedded as deterministic functions of an
environment of oracles (price service, swap worker, aggregate loads and the
outcome of event-store appends) that return a result together with the list
of side effects performed, in order.
-/

/-- Decidable equality for Except results, used to evaluate the embedded
fallible operations on concrete inputs. -/
instance {ε α : Type} [DecidableEq ε] [DecidableEq α] : DecidableEq (Except ε α) :=
  fun x y =>
    match x, y with
    | .ok a, .ok b =>
        if h : a = b then .isTrue (by rw [h])
        else .isFalse (by intro hc; cases hc; exact h rfl)
    | .error a, .error b =>
        if h : a = b then .isTrue (by rw [h])
        else .isFalse (by intro hc; cases hc; exact h rfl)
    | .ok _, .error _ => .isFalse (by intro hc; cases hc)
    | .error _, .ok _ => .isFalse (by intro hc; cases hc)

/-- Common event fields of package order's BaseEvent
(src/domain/order/events.go lines 9-17).  The Go metadata is a
map from string keys to arbitrary values; the repository only ever stores
string values in it, so it is embedded as an association list. -/
structure BaseEvent where
  eventID : String
  aggregateID : String
  aggregateType : String
  eventType : String
  version : Nat
  timestamp : Nat
  metadata : List (String × String)
deriving DecidableEq, Repr

/-- Domain events of the Order aggregate (src/domain/order/events.go).
The constructor orderPartFilled embeds the Go event OrderPartiallyFilled. -/
inductive OrderEvent where
  | orderAccepted (base : BaseEvent) (userID : String) (fromAmount : Rat)
      (fromCurrency toCurrency orderType : String)
  | priceQuoted (base : BaseEvent) (price toAmount : Rat)
  | swapExecuting (base : BaseEvent) (idempotencyKey : String)
  | swapExecuted (base : BaseEvent) (transactionHash : String)
      (fromAmount toAmount executedPrice fees slippage : Rat)
  | orderCompleted (base : BaseEvent) (fromAmount toAmount executedPrice : Rat)
      (status : String)
  | orderFailed (base : BaseEvent) (reason : String)
  | orderInitialized (base : BaseEvent)
  | limitPriceSet (base : BaseEvent) (limitPrice : Rat)
  | orderUpdated (base : BaseEvent) (updatedFields : List (String × Rat))
  | orderCancelled (base : BaseEvent) (reason : String)
  | balanceCheckPassed (base : BaseEvent) (availableAmount : Rat) (currency : String)
  | balanceCheckFailed (base : BaseEvent) (requiredAmount availableAmount : Rat)
      (currency : String)
  | orderPlacedInBook (base : BaseEvent) (orderBookID : String)
  | orderPartFilled (base : BaseEvent) (filledAmount executedPrice : Rat)
      (transactionHash : String)
deriving DecidableEq, Repr

/-- The base fields of an order event. -/
def OrderEvent.base : OrderEvent → BaseEvent
  | .orderAccepted b _ _ _ _ _ => b
  | .priceQuoted b _ _ => b
  | .swapExecuting b _ => b
  | .swapExecuted b _ _ _ _ _ _ => b
  | .orderCompleted b _ _ _ _ => b
  | .orderFailed b _ => b
  | .orderInitialized b => b
  | .limitPriceSet b _ => b
  | .orderUpdated b _ => b
  | .orderCancelled b _ => b
  | .balanceCheckPassed b _ _ => b
  | .balanceCheckFailed b _ _ _ => b
  | .orderPlacedInBook b _ => b
  | .orderPartFilled b _ _ _ => b

/-- The version carried by an order event. -/
def OrderEvent.ver (e : OrderEvent) : Nat := e.base.version

/-- The Order aggregate state (src/domain/orderbook/aggregate.go, package
order section, Order struct).  Go's OrderStatus is a string type; the
fresh aggregate NewOrder leaves it at the empty string. -/
structure Order where
  id : String
  userID : String
  fromAmount : Rat
  fromCurrency : String
  toCurrency : String
  toAmount : Rat
  executedPrice : Rat
  orderType : String
  status : String
  version : Nat
  createdAt : Nat
  updatedAt : Nat
  changes : List OrderEvent
deriving DecidableEq, Repr

/-- NewOrder creates a fresh empty order (aggregate.go, NewOrder). -/
def newOrder : Order :=
  { id := "", userID := "", fromAmount := 0, fromCurrency := "", toCurrency := ""
    toAmount := 0, executedPrice := 0, orderType := "", status := "", version := 0
    createdAt := 0, updatedAt := 0, changes := [] }

/-- Order.When: the state transition function used by Apply and by replay
(aggregate.go, package order section, When).  The Go function returns an
error on unknown event types; the embedding's event type is closed over
exactly the known events, so the function is total. -/
def Order.when (o : Order) (event : OrderEvent) : Order :=
  match event with
  | .orderAccepted e userID fromAmount fromCurrency toCurrency orderType =>
      { o with id := e.aggregateID, userID := userID, fromAmount := fromAmount
               fromCurrency := fromCurrency, toCurrency := toCurrency
               orderType := orderType, status := "pending", version := e.version
               createdAt := e.timestamp, updatedAt := e.timestamp }
  | .priceQuoted e price toAmount =>
      { o with toAmount := toAmount, executedPrice := price
               version := e.version, updatedAt := e.timestamp }
  | .swapExecuting e _ =>
      { o with status := "executing", version := e.version, updatedAt := e.timestamp }
  | .swapExecuted e _ _ toAmount executedPrice _ _ =>
      { o with toAmount := toAmount, executedPrice := executedPrice
               version := e.version, updatedAt := e.timestamp }
  | .orderCompleted e fromAmount toAmount executedPrice _ =>
      { o with status := "completed", fromAmount := fromAmount
               toAmount := toAmount, executedPrice := executedPrice
               version := e.version, updatedAt := e.timestamp }
  | .orderFailed e _ =>
      { o with status := "failed", version := e.version, updatedAt := e.timestamp }
  | .orderInitialized e =>
      { o with version := e.version, updatedAt := e.timestamp }
  | .limitPriceSet e limitPrice =>
      { o with executedPrice := limitPrice, version := e.version
               updatedAt := e.timestamp }
  | .orderUpdated e fields =>
      let o' := fields.foldl
        (fun acc kv =>
          if kv.1 = "from_amount" then { acc with fromAmount := kv.2 }
          else if kv.1 = "to_amount" then { acc with toAmount := kv.2 }
          else acc) o
      { o' with version := e.version, updatedAt := e.timestamp }
  | .orderCancelled e _ =>
      { o with status := "failed", version := e.version, updatedAt := e.timestamp }
  | .balanceCheckPassed e _ _ =>
      { o with version := e.version, updatedAt := e.timestamp }
  | .balanceCheckFailed e _ _ _ =>
      { o with version := e.version, updatedAt := e.timestamp }
  | .orderPlacedInBook e _ =>
      { o with version := e.version, updatedAt := e.timestamp }
  | .orderPartFilled e filledAmount executedPrice _ =>
      { o with toAmount := o.toAmount + filledAmount, executedPrice := executedPrice
               version := e.version, updatedAt := e.timestamp }

/-- Order.Apply: updates state via When and appends the event to the
uncommitted Changes list (aggregate.go, Apply). -/
def Order.applyEvt (o : Order) (event : OrderEvent) : Order :=
  let o' := o.when event
  { o' with changes := o.changes ++ [event] }

/-- Order.AcceptOrder (aggregate.go lines 606-647).  Validates the business
rules and emits OrderAccepted with version hard-coded to 1.  The generated
UUID and the clock read are passed as the parameters eid and now. -/
def Order.acceptOrder (o : Order) (orderID userID : String) (fromAmount : Rat)
    (fromCurrency toCurrency orderType : String) (eid : String) (now : Nat) :
    Except String Order :=
  if fromAmount ≤ 0 then .error "from_amount must be positive"
  else if fromAmount < 10 then .error "minimum order amount is 10"
  else if orderType ≠ "market" ∧ orderType ≠ "limit" then
    .error "order_type must be market or limit"
  else .ok (o.applyEvt (.orderAccepted
    ⟨eid, orderID, "Order", "OrderAccepted", 1, now, [("user_agent", "api-v1")]⟩
    userID fromAmount fromCurrency toCurrency orderType))

/-- Order.QuotePrice (aggregate.go lines 649-675). -/
def Order.quotePrice (o : Order) (price toAmount : Rat) (eid : String) (now : Nat) :
    Except String Order :=
  if o.status ≠ "pending" then .error "cannot quote price: bad status"
  else if price ≤ 0 ∨ toAmount ≤ 0 then .error "price and toAmount must be positive"
  else .ok (o.applyEvt (.priceQuoted
    ⟨eid, o.id, "Order", "PriceQuoted", o.version + 1, now, []⟩ price toAmount))

/-- Order.StartSwapExecution (aggregate.go lines 677-696). -/
def Order.startSwapExecution (o : Order) (idempotencyKey eid : String) (now : Nat) :
    Except String Order :=
  if o.status ≠ "pending" then .error "cannot start execution: bad status"
  else .ok (o.applyEvt (.swapExecuting
    ⟨eid, o.id, "Order", "SwapExecuting", o.version + 1, now, []⟩ idempotencyKey))

/-- Order.RecordSwapExecution (aggregate.go lines 698-725).  The emitted
SwapExecuted event's BaseEvent carries no Metadata (the Go literal omits the
field, leaving the map nil). -/
def Order.recordSwapExecution (o : Order) (txHash : String)
    (fromAmount toAmount executedPrice fees slippage : Rat) (eid : String) (now : Nat) :
    Except String Order :=
  if o.status ≠ "executing" then .error "cannot record execution: bad status"
  else .ok (o.applyEvt (.swapExecuted
    ⟨eid, o.id, "Order", "SwapExecuted", o.version + 1, now, []⟩
    txHash fromAmount toAmount executedPrice fees slippage))

/-- Order.CompleteOrder (aggregate.go lines 727-754).  Business-level
idempotency: a completed order is a no-op success. -/
def Order.completeOrder (o : Order) (eid : String) (now : Nat) : Except String Order :=
  if o.status = "completed" then .ok o
  else if o.status ≠ "executing" then .error "cannot complete order: bad status"
  else .ok (o.applyEvt (.orderCompleted
    ⟨eid, o.id, "Order", "OrderCompleted", o.version + 1, now, []⟩
    o.fromAmount o.toAmount o.executedPrice "completed"))

/-- Order.FailOrder (aggregate.go lines 756-781).  A failed order is a no-op
success; a completed order cannot be failed. -/
def Order.failOrder (o : Order) (reason eid : String) (now : Nat) : Except String Order :=
  if o.status = "failed" then .ok o
  else if o.status = "completed" then .error "cannot fail completed order"
  else .ok (o.applyEvt (.orderFailed
    ⟨eid, o.id, "Order", "OrderFailed", o.version + 1, now, []⟩ reason))

/-- Order.InitializeOrder (aggregate.go lines 787-805). -/
def Order.initializeOrder (o : Order) (eid : String) (now : Nat) : Except String Order :=
  if o.status ≠ "pending" then .error "cannot initialize: bad status"
  else .ok (o.applyEvt (.orderInitialized
    ⟨eid, o.id, "Order", "OrderInitialized", o.version + 1, now, []⟩))

/-- Order.SetLimitPrice (aggregate.go lines 807-834). -/
def Order.setLimitPrice (o : Order) (limitPrice : Rat) (eid : String) (now : Nat) :
    Except String Order :=
  if o.orderType ≠ "limit" then .error "cannot set limit price: order is not a limit order"
  else if o.status ≠ "pending" then .error "cannot set limit price: bad status"
  else if limitPrice ≤ 0 then .error "limit price must be positive"
  else .ok (o.applyEvt (.limitPriceSet
    ⟨eid, o.id, "Order", "LimitPriceSet", o.version + 1, now, []⟩ limitPrice))

/-- Order.UpdateOrder (aggregate.go lines 836-859).  The dynamic parameter
map is embedded as an association list of numeric fields. -/
def Order.updateOrder (o : Order) (params : List (String × Rat)) (eid : String)
    (now : Nat) : Except String Order :=
  if o.status = "completed" then .error "cannot update completed order"
  else if o.status = "failed" then .error "cannot update failed order"
  else .ok (o.applyEvt (.orderUpdated
    ⟨eid, o.id, "Order", "OrderUpdated", o.version + 1, now, []⟩ params))

/-- Order.CancelOrder (aggregate.go lines 861-890).  A failed order is a
no-op success; completed and executing orders cannot be cancelled; every
other status (including the fresh empty status) emits OrderCancelled. -/
def Order.cancelOrder (o : Order) (reason eid : String) (now : Nat) :
    Except String Order :=
  if o.status = "failed" then .ok o
  else if o.status = "completed" then .error "cannot cancel completed order"
  else if o.status = "executing" then .error "cannot cancel executing order"
  else .ok (o.applyEvt (.orderCancelled
    ⟨eid, o.id, "Order", "OrderCancelled", o.version + 1, now, []⟩ reason))

/-- Order.CheckBalances (aggregate.go lines 892-931). -/
def Order.checkBalances (o : Order) (availableBalance : Rat) (eid : String) (now : Nat) :
    Except String Order :=
  if o.status ≠ "pending" then .error "cannot check balances: bad status"
  else if availableBalance < o.fromAmount then
    .ok (o.applyEvt (.balanceCheckFailed
      ⟨eid, o.id, "Order", "BalanceCheckFailed", o.version + 1, now, []⟩
      o.fromAmount availableBalance o.fromCurrency))
  else .ok (o.applyEvt (.balanceCheckPassed
    ⟨eid, o.id, "Order", "BalanceCheckPassed", o.version + 1, now, []⟩
    availableBalance o.fromCurrency))

/-- Order.PlaceInOrderBook (aggregate.go lines 933-957). -/
def Order.placeInOrderBook (o : Order) (orderBookID eid : String) (now : Nat) :
    Except String Order :=
  if o.orderType ≠ "limit" then .error "only limit orders can be placed in order book"
  else if o.status ≠ "pending" then .error "cannot place in order book: bad status"
  else .ok (o.applyEvt (.orderPlacedInBook
    ⟨eid, o.id, "Order", "OrderPlacedInBook", o.version + 1, now, []⟩ orderBookID))

/-- Order.PartiallyFill (aggregate.go lines 959-985). -/
def Order.partFill (o : Order) (filledAmount executedPrice : Rat)
    (transactionHash eid : String) (now : Nat) : Except String Order :=
  if o.status ≠ "executing" then .error "cannot partially fill: bad status"
  else if filledAmount ≤ 0 ∨ filledAmount > o.fromAmount then
    .error "invalid filled amount"
  else .ok (o.applyEvt (.orderPartFilled
    ⟨eid, o.id, "Order", "OrderPartiallyFilled", o.version + 1, now, []⟩
    filledAmount executedPrice transactionHash))

/-- A command of the Order aggregate, with the generated UUID and clock read
made explicit.  cmdPartFill embeds the PartiallyFill command. -/
inductive OrderCmd where
  | cmdAccept (orderID userID : String) (fromAmount : Rat)
      (fromCurrency toCurrency orderType eid : String) (now : Nat)
  | cmdQuotePrice (price toAmount : Rat) (eid : String) (now : Nat)
  | cmdStartSwap (idempotencyKey eid : String) (now : Nat)
  | cmdRecordSwap (txHash : String)
      (fromAmount toAmount executedPrice fees slippage : Rat) (eid : String) (now : Nat)
  | cmdComplete (eid : String) (now : Nat)
  | cmdFail (reason eid : String) (now : Nat)
  | cmdInit (eid : String) (now : Nat)
  | cmdSetLimitPrice (limitPrice : Rat) (eid : String) (now : Nat)
  | cmdUpdate (params : List (String × Rat)) (eid : String) (now : Nat)
  | cmdCancel (reason eid : String) (now : Nat)
  | cmdCheckBalances (availableBalance : Rat) (eid : String) (now : Nat)
  | cmdPlaceInBook (orderBookID eid : String) (now : Nat)
  | cmdPartFill (filledAmount executedPrice : Rat) (transactionHash eid : String)
      (now : Nat)
deriving DecidableEq, Repr

/-- Whether a command is AcceptOrder. -/
def OrderCmd.isAccept : OrderCmd → Bool
  | .cmdAccept .. => true
  | _ => false

/-- Dispatch a command to the corresponding Order method. -/
def runCmd (o : Order) : OrderCmd → Except String Order
  | .cmdAccept orderID userID fromAmount fromCurrency toCurrency orderType eid now =>
      o.acceptOrder orderID userID fromAmount fromCurrency toCurrency orderType eid now
  | .cmdQuotePrice price toAmount eid now => o.quotePrice price toAmount eid now
  | .cmdStartSwap key eid now => o.startSwapExecution key eid now
  | .cmdRecordSwap tx fa ta ep fees sl eid now =>
      o.recordSwapExecution tx fa ta ep fees sl eid now
  | .cmdComplete eid now => o.completeOrder eid now
  | .cmdFail reason eid now => o.failOrder reason eid now
  | .cmdInit eid now => o.initializeOrder eid now
  | .cmdSetLimitPrice p eid now => o.setLimitPrice p eid now
  | .cmdUpdate params eid now => o.updateOrder params eid now
  | .cmdCancel reason eid now => o.cancelOrder reason eid now
  | .cmdCheckBalances avail eid now => o.checkBalances avail eid now
  | .cmdPlaceInBook bookID eid now => o.placeInOrderBook bookID eid now
  | .cmdPartFill amt price tx eid now => o.partFill amt price tx eid now

/-- Run a sequence of commands; the whole run fails as soon as one command
fails (a sequence of successful commands is one on which this returns ok). -/
def runCmds (o : Order) : List OrderCmd → Except String Order
  | [] => .ok o
  | c :: cs => match runCmd o c with
    | .error e => .error e
    | .ok o' => runCmds o' cs

example : (runCmds newOrder
    [.cmdAccept "o1" "u1" 1000 "USDT" "BTC" "market" "e1" 0,
     .cmdQuotePrice 100000 10 "e2" 1]).map (fun o => o.changes.map OrderEvent.ver)
    = .ok [1, 2] := by decide

/-- Common event fields of package position's BaseEvent
(src/domain/position/events.go lines 8-15); unlike the order package's
BaseEvent it has no metadata field. -/
structure PBaseEvent where
  eventID : String
  aggregateID : String
  aggregateType : String
  eventType : String
  version : Nat
  timestamp : Nat
deriving DecidableEq, Repr

/-- Domain events of the Position aggregate (src/domain/position/events.go). -/
inductive PositionEvent where
  | positionCreated (base : PBaseEvent) (userID : String) (remainingAmount : Rat)
      (status : String)
  | positionUpdated (base : PBaseEvent) (addedOrderID : String)
      (remainingAmount totalValue pnl : Rat)
  | positionClosed (base : PBaseEvent) (reason : String) (closedAt : Nat)
deriving DecidableEq, Repr

/-- The base fields of a position event. -/
def PositionEvent.base : PositionEvent → PBaseEvent
  | .positionCreated b _ _ _ => b
  | .positionUpdated b _ _ _ _ => b
  | .positionClosed b _ _ => b

/-- Modelled from the spec: the Position aggregate state (spec §3).  The
file implementing the Position state machine (the domain/position aggregate
file) is not among the sources; only its events, repositories and callers
are.  Attributes follow spec §3: id, user_id, orders (order_id with added
to_amount, value, pnl), remaining_amount, status in open or closed,
version. -/
structure Position where
  id : String
  userID : String
  orders : List (String × Rat × Rat × Rat)
  remainingAmount : Rat
  status : String
  version : Nat
  changes : List PositionEvent
deriving DecidableEq, Repr

/-- Modelled from the spec: NewPosition creates a fresh empty position,
mirroring NewOrder (spec §4.3, replay starts from an empty aggregate). -/
def newPosition : Position :=
  { id := "", userID := "", orders := [], remainingAmount := 0, status := ""
    version := 0, changes := [] }

/-- Modelled from the spec: Position.When (spec §3 lifecycle — created by
PositionCreated, PositionUpdated adds one order, PositionClosed is
terminal; §4.3 replay applies each event in version order). -/
def Position.when (p : Position) (event : PositionEvent) : Position :=
  match event with
  | .positionCreated e userID remainingAmount _ =>
      { p with id := e.aggregateID, userID := userID
               remainingAmount := remainingAmount, status := "open"
               version := e.version }
  | .positionUpdated e addedOrderID remainingAmount totalValue pnl =>
      { p with orders := p.orders ++ [(addedOrderID, remainingAmount, totalValue, pnl)]
               version := e.version }
  | .positionClosed e _ _ =>
      { p with status := "closed", version := e.version }

/-- Modelled from the spec: Position.Apply, mirroring Order.Apply (spec
§4.3: Apply updates state and appends to the uncommitted list). -/
def Position.applyEvt (p : Position) (event : PositionEvent) : Position :=
  let p' := p.when event
  { p' with changes := p.changes ++ [event] }

/-- Modelled from the spec: Position.CreatePosition(positionID, userID)
(spec §4.3 Position table: pre-state (new), emits PositionCreated,
post-state open). -/
def Position.createPosition (p : Position) (positionID userID eid : String)
    (now : Nat) : Except String Position :=
  .ok (p.applyEvt (.positionCreated
    ⟨eid, positionID, "Position", "PositionCreated", 1, now⟩ userID 0 "open"))

/-- Modelled from the spec: Position.AddOrder(order_id, to_amt, value, pnl)
(spec §4.3 Position table: pre-state open, emits PositionUpdated; the
repository's commands reference documents the validation that status must
be open). -/
def Position.addOrder (p : Position) (orderID : String)
    (toAmount totalValue pnl : Rat) (eid : String) (now : Nat) :
    Except String Position :=
  if p.status ≠ "open" then .error "cannot add order: position is not open"
  else .ok (p.applyEvt (.positionUpdated
    ⟨eid, p.id, "Position", "PositionUpdated", p.version + 1, now⟩
    orderID toAmount totalValue pnl))

/-- Modelled from the spec: Position.ClosePosition(reason) (spec §4.3
Position table: pre-state open, closed is a no-op; §8: invoking
ClosePosition on closed is a no-op and emits no event). -/
def Position.closePosition (p : Position) (reason eid : String) (now : Nat) :
    Except String Position :=
  if p.status = "closed" then .ok p
  else if p.status ≠ "open" then .error "cannot close: position is not open"
  else .ok (p.applyEvt (.positionClosed
    ⟨eid, p.id, "Position", "PositionClosed", p.version + 1, now⟩ reason now))

/-- The constructor tag a position event would be serialized under (the
stored event_type column equals the EventType base field extracted by
serializeEvent, src/infrastructure/eventstore/serializer.go). -/
def PositionEvent.ctorType : PositionEvent → String
  | .positionCreated .. => "PositionCreated"
  | .positionUpdated .. => "PositionUpdated"
  | .positionClosed .. => "PositionClosed"

/-- A position stored event is well formed when its event_type column
matches its payload constructor, as serializeEvent guarantees for every
event the system commits. -/
def PositionEvent.wellTagged (e : PositionEvent) : Prop :=
  e.base.eventType = e.ctorType

instance (e : PositionEvent) : Decidable e.wellTagged := by
  unfold PositionEvent.wellTagged; infer_instance

/-- deserializePositionEvent of the aggregate store
(src/application/aggregates/aggregate_store.go lines 163-183): the switch
recognizes only PositionCreated and PositionClosed; every other stored
event_type (PositionUpdated included) falls to the default branch and is an
error. -/
def aggStoreDeserializePositionEvent (evt : PositionEvent) :
    Except String PositionEvent :=
  if evt.base.eventType = "PositionCreated" then .ok evt
  else if evt.base.eventType = "PositionClosed" then .ok evt
  else .error ("unknown event type: " ++ evt.base.eventType)

/-- deserializePositionEvent of the position repository
(src/infrastructure/repository/position_repository.go lines 60-86): the
switch recognizes PositionCreated, PositionUpdated and PositionClosed. -/
def repoDeserializePositionEvent (evt : PositionEvent) :
    Except String PositionEvent :=
  if evt.base.eventType = "PositionCreated" then .ok evt
  else if evt.base.eventType = "PositionUpdated" then .ok evt
  else if evt.base.eventType = "PositionClosed" then .ok evt
  else .error ("unknown event type: " ++ evt.base.eventType)

/-- Replay a position stream through a deserializer, folding When over the
deserialized events (the loop shared by LoadPositionAggregate and
PositionRepository.Get). -/
def replayPosition (deserialize : PositionEvent → Except String PositionEvent) :
    Position → List PositionEvent → Except String Position
  | p, [] => .ok p
  | p, evt :: rest =>
      match deserialize evt with
      | .error e => .error ("failed to deserialize event: " ++ e)
      | .ok domainEvent => replayPosition deserialize (p.when domainEvent) rest

/-- AggregateStore.LoadPositionAggregate
(src/application/aggregates/aggregate_store.go lines 69-97): empty stream
is not-found; otherwise replays through the aggregate store's
deserializer. -/
def loadPositionAggregateFrom (stream : List PositionEvent) :
    Except String Position :=
  if stream.isEmpty then .error "aggregate not found"
  else replayPosition aggStoreDeserializePositionEvent newPosition stream

/-- PositionRepository.Get
(src/infrastructure/repository/position_repository.go lines 21-45): empty
stream is not-found; otherwise replays through the repository's
deserializer. -/
def positionRepositoryGetFrom (stream : List PositionEvent) :
    Except String Position :=
  if stream.isEmpty then .error "position not found"
  else replayPosition repoDeserializePositionEvent newPosition stream

/-- An event submitted to the event log: either an order event or a
position event (EventStore.Save takes a heterogeneous event list). -/
inductive DomainEvent where
  | ord (e : OrderEvent)
  | pos (e : PositionEvent)
deriving DecidableEq, Repr

/-- The OrderAccepted message a handler decodes from the bus
(src/domain/order/events.go, OrderAccepted). -/
structure OrderAcceptedMsg where
  base : BaseEvent
  userID : String
  fromAmount : Rat
  fromCurrency : String
  toCurrency : String
  orderType : String
deriving DecidableEq, Repr

/-- The PriceQuoted message a handler decodes from the bus. -/
structure PriceQuotedMsg where
  base : BaseEvent
  price : Rat
  toAmount : Rat
  quoteTimestamp : Nat
deriving DecidableEq, Repr

/-- The synthetic PositionCreatedForOrder coordination message
(src/domain/order/events.go, PositionCreatedForOrder). -/
structure PositionCreatedForOrderMsg where
  base : BaseEvent
  positionID : String
  userID : String
deriving DecidableEq, Repr

/-- The SwapExecuted message a handler decodes from the bus. -/
structure SwapExecutedMsg where
  base : BaseEvent
  transactionHash : String
  fromAmount : Rat
  toAmount : Rat
  executedPrice : Rat
  fees : Rat
  slippage : Rat
deriving DecidableEq, Repr

/-- The synthetic PositionLinkedToOrder message. -/
structure PositionLinkedMsg where
  base : BaseEvent
  positionID : String
  orderID : String
deriving DecidableEq, Repr

/-- SwapResponse returned by the trade worker (src/unnamed/part_004). -/
structure SwapResponse where
  transactionHash : String
  toAmount : Rat
  executedPrice : Rat
  fees : Rat
  slippage : Rat
deriving DecidableEq, Repr

/-- SwapResult passed to the atomic completion use case
(src/application/usecases/complete_order_and_update_position.go). -/
structure SwapResult where
  transactionHash : String
  fromAmount : Rat
  toAmount : Rat
  executedPrice : Rat
  fees : Rat
  slippage : Rat
deriving DecidableEq, Repr

/-- A payload published to the message bus by a saga handler. -/
inductive PublishedPayload where
  | swapExecutedP (m : SwapExecutedMsg)
  | positionCreatedForOrderP (m : PositionCreatedForOrderMsg)
  | positionLinkedP (m : PositionLinkedMsg)
deriving DecidableEq, Repr

/-- A side effect performed by a saga handler or use case, in program
order: external price call, aggregate loads, event-log appends, swap-worker
call, bus publishes and processed-set writes. -/
inductive Effect where
  | getPrice (fromCurrency toCurrency : String)
  | loadOrder (aggregateID : String)
  | loadPosition (aggregateID : String)
  | storeSave (events : List DomainEvent)
  | execSwap (idempotencyKey : String)
  | publish (routingKey : String) (payload : PublishedPayload)
  | markProcessed (eventID processedBy : String)
deriving DecidableEq, Repr

/-- Whether an effect is an event-log append. -/
def Effect.isStoreSave : Effect → Bool
  | .storeSave _ => true
  | _ => false

/-- Whether an effect is an order-aggregate load. -/
def Effect.isLoadOrder : Effect → Bool
  | .loadOrder _ => true
  | _ => false

/-- The environment of oracles a handler invocation runs against: the
processed-event set, the outcome of the price-service call, of aggregate
loads by id, of event-log appends, and of the swap-worker call, plus the
UUIDs the invocation generates and the clock. -/
structure SagaEnv where
  processed : List String
  price : Except String Rat
  loadOrder : String → Except String Order
  loadPosition : String → Except String Position
  storeSave : List DomainEvent → Except String Unit
  swap : Except String SwapResponse
  uuid1 : String
  uuid2 : String
  uuid3 : String
  now : Nat

/-- AggregateStore.SaveOrderAggregate (aggregate_store.go lines 52-67): a
no-op when there are no uncommitted changes, otherwise one event-log append
of exactly the uncommitted list. -/
def saveOrderAggregate (env : SagaEnv) (o : Order) :
    Except String Unit × List Effect :=
  if o.changes.isEmpty then (.ok (), [])
  else
    let evts := o.changes.map DomainEvent.ord
    match env.storeSave evts with
    | .ok _ => (.ok (), [.storeSave evts])
    | .error e => (.error ("failed to save events: " ++ e), [.storeSave evts])

/-- AggregateStore.SavePositionAggregate (aggregate_store.go lines
99-111). -/
def savePositionAggregate (env : SagaEnv) (p : Position) :
    Except String Unit × List Effect :=
  if p.changes.isEmpty then (.ok (), [])
  else
    let evts := p.changes.map DomainEvent.pos
    match env.storeSave evts with
    | .ok _ => (.ok (), [.storeSave evts])
    | .error e => (.error ("failed to save events: " ++ e), [.storeSave evts])

/-- OrderSagaRefactored.compensateOrderFailed (src/unnamed/part_007 lines
166-182): load the order, FailOrder(reason), save. -/
def compensateOrderFailed (env : SagaEnv) (orderID reason : String) :
    Except String Unit × List Effect :=
  match env.loadOrder orderID with
  | .error e => (.error e, [.loadOrder orderID])
  | .ok o =>
      match o.failOrder reason env.uuid1 env.now with
      | .error e => (.error e, [.loadOrder orderID])
      | .ok o' =>
          let (res, tr) := saveOrderAggregate env o'
          (res, .loadOrder orderID :: tr)

/-- OrderSagaRefactored.compensateSwapFailed (src/unnamed/part_007 lines
186-207): fail the order, then load and close the position. -/
def compensateSwapFailed (env : SagaEnv) (orderID positionID reason : String) :
    Except String Unit × List Effect :=
  let (res, tr) := compensateOrderFailed env orderID reason
  match res with
  | .error e => (.error e, tr)
  | .ok _ =>
      match env.loadPosition positionID with
      | .error e => (.error e, tr ++ [.loadPosition positionID])
      | .ok p =>
          match p.closePosition "order_failed" env.uuid2 env.now with
          | .error e => (.error e, tr ++ [.loadPosition positionID])
          | .ok p' =>
              let (res2, tr2) := savePositionAggregate env p'
              (res2, tr ++ [.loadPosition positionID] ++ tr2)

/-- Step 1, OrderSagaRefactored.handleOrderAccepted (src/unnamed/part_007
lines 22-71): idempotency check; price call; on price failure the FailOrder
compensation with reason price_unavailable; on success load the order,
QuotePrice(price, from_amount/price), save, mark processed. -/
def handleOrderAccepted (env : SagaEnv) (msg : OrderAcceptedMsg) :
    Except String Unit × List Effect :=
  if msg.base.eventID ∈ env.processed then (.ok (), [])
  else
    let priceEff := Effect.getPrice msg.fromCurrency msg.toCurrency
    match env.price with
    | .error _ =>
        let (res, tr) := compensateOrderFailed env msg.base.aggregateID "price_unavailable"
        (res, priceEff :: tr)
    | .ok price =>
        let toAmount := msg.fromAmount / price
        match env.loadOrder msg.base.aggregateID with
        | .error e => (.error e, [priceEff, .loadOrder msg.base.aggregateID])
        | .ok o =>
            match o.quotePrice price toAmount env.uuid1 env.now with
            | .error e => (.error e, [priceEff, .loadOrder msg.base.aggregateID])
            | .ok o' =>
                let (res, tr) := saveOrderAggregate env o'
                match res with
                | .error e =>
                    (.error e, priceEff :: .loadOrder msg.base.aggregateID :: tr)
                | .ok _ =>
                    (.ok (), priceEff :: .loadOrder msg.base.aggregateID :: tr
                      ++ [.markProcessed msg.base.eventID "order-saga-step1"])

/-- Step 2, OrderSagaRefactored.handlePriceQuoted (src/unnamed/part_007,
third document section, lines 230-293): idempotency check; load the order
for its user id; mint a position id; create and save the position; publish
the synthetic PositionCreatedForOrder event carrying the position id in
payload and metadata; mark processed. -/
def handlePriceQuoted (env : SagaEnv) (msg : PriceQuotedMsg) :
    Except String Unit × List Effect :=
  if msg.base.eventID ∈ env.processed then (.ok (), [])
  else
    match env.loadOrder msg.base.aggregateID with
    | .error e => (.error e, [.loadOrder msg.base.aggregateID])
    | .ok o =>
        let positionID := env.uuid1
        match newPosition.createPosition positionID o.userID env.uuid2 env.now with
        | .error e => (.error e, [.loadOrder msg.base.aggregateID])
        | .ok p =>
            let (res, tr) := savePositionAggregate env p
            match res with
            | .error e => (.error e, .loadOrder msg.base.aggregateID :: tr)
            | .ok _ =>
                let m : PositionCreatedForOrderMsg :=
                  { base := ⟨env.uuid3, msg.base.aggregateID, "Order",
                      "PositionCreatedForOrder", msg.base.version + 1,
                      msg.base.timestamp, [("position_id", positionID)]⟩
                    positionID := positionID, userID := o.userID }
                (.ok (), .loadOrder msg.base.aggregateID :: tr
                  ++ [.publish "PositionCreatedForOrder" (.positionCreatedForOrderP m),
                      .markProcessed msg.base.eventID "order-saga-step2"])

/-- Step 3, OrderSagaRefactored.handlePositionCreated
(src/application/saga/swap.go lines 27-126): idempotency check; load the
order; StartSwapExecution("swap-" + order_id) and save; call the swap
worker, compensating on failure; on success reload the order, record the
swap execution (the command's error is discarded by the Go code), save, and
publish the synthetic SwapExecuted event carrying position_id in metadata;
mark processed. -/
def handlePositionCreated (env : SagaEnv) (msg : PositionCreatedForOrderMsg) :
    Except String Unit × List Effect :=
  if msg.base.eventID ∈ env.processed then (.ok (), [])
  else
    let oid := msg.base.aggregateID
    match env.loadOrder oid with
    | .error e => (.error e, [.loadOrder oid])
    | .ok o =>
        let idempotencyKey := "swap-" ++ oid
        match o.startSwapExecution idempotencyKey env.uuid1 env.now with
        | .error e => (.error e, [.loadOrder oid])
        | .ok o1 =>
            let (res1, tr1) := saveOrderAggregate env o1
            match res1 with
            | .error e => (.error e, .loadOrder oid :: tr1)
            | .ok _ =>
                match env.swap with
                | .error e =>
                    let (res, tr) := compensateSwapFailed env oid msg.positionID e
                    (res, .loadOrder oid :: tr1 ++ [.execSwap idempotencyKey] ++ tr)
                | .ok resp =>
                    match env.loadOrder oid with
                    | .error e =>
                        (.error e, .loadOrder oid :: tr1
                          ++ [.execSwap idempotencyKey, .loadOrder oid])
                    | .ok o2 =>
                        let o3 := match o2.recordSwapExecution resp.transactionHash
                            o2.fromAmount resp.toAmount resp.executedPrice resp.fees
                            resp.slippage env.uuid2 env.now with
                          | .ok x => x
                          | .error _ => o2
                        let (res2, tr2) := saveOrderAggregate env o3
                        match res2 with
                        | .error e =>
                            (.error e, .loadOrder oid :: tr1
                              ++ [.execSwap idempotencyKey, .loadOrder oid] ++ tr2)
                        | .ok _ =>
                            let m : SwapExecutedMsg :=
                              { base := ⟨env.uuid3, oid, "Order", "SwapExecuted",
                                  o3.version, o3.updatedAt,
                                  [("position_id", msg.positionID)]⟩
                                transactionHash := resp.transactionHash
                                fromAmount := o3.fromAmount
                                toAmount := resp.toAmount
                                executedPrice := resp.executedPrice
                                fees := resp.fees, slippage := resp.slippage }
                            (.ok (), .loadOrder oid :: tr1
                              ++ [.execSwap idempotencyKey, .loadOrder oid] ++ tr2
                              ++ [.publish "SwapExecuted" (.swapExecutedP m),
                                  .markProcessed msg.base.eventID "order-saga-step3"])

/-- The version-bookkeeping invariant of a replay-free Order instance: the
uncommitted events carry exactly the contiguous versions 1..N and the
aggregate's version equals N. -/
def OrderInv (o : Order) : Prop :=
  o.changes.map OrderEvent.ver = List.range' 1 o.changes.length ∧
  o.version = o.changes.length

instance (o : Order) : Decidable (OrderInv o) := by
  unfold OrderInv; infer_instance

/-- CompleteOrderAndUpdatePositionUseCase.Execute, aggregate-store variant
(src/application/usecases/complete_order_and_update_position.go lines
40-84, the variant main wires into the saga): load the order, CompleteOrder,
load the position, AddOrder(order_id, to_amount, from_amount, 0), then save
the order events and save the position events — two separate appends. -/
def executeCompleteOrderAndUpdatePosition (env : SagaEnv)
    (orderID positionID : String) (swapResult : SwapResult) :
    Except String Unit × List Effect :=
  match env.loadOrder orderID with
  | .error e => (.error ("failed to load order aggregate: " ++ e), [.loadOrder orderID])
  | .ok o =>
      match o.completeOrder env.uuid1 env.now with
      | .error e => (.error ("failed to complete order: " ++ e), [.loadOrder orderID])
      | .ok o1 =>
          match env.loadPosition positionID with
          | .error e =>
              (.error ("failed to load position aggregate: " ++ e),
                [.loadOrder orderID, .loadPosition positionID])
          | .ok p =>
              let totalValue := swapResult.fromAmount
              let pnl : Rat := 0
              match p.addOrder orderID swapResult.toAmount totalValue pnl
                  env.uuid2 env.now with
              | .error e =>
                  (.error ("failed to update position: " ++ e),
                    [.loadOrder orderID, .loadPosition positionID])
              | .ok p1 =>
                  let (res1, tr1) := saveOrderAggregate env o1
                  match res1 with
                  | .error e =>
                      (.error ("failed to save order events: " ++ e),
                        .loadOrder orderID :: .loadPosition positionID :: tr1)
                  | .ok _ =>
                      let (res2, tr2) := savePositionAggregate env p1
                      match res2 with
                      | .error e =>
                          (.error ("failed to save position events: " ++ e),
                            .loadOrder orderID :: .loadPosition positionID
                              :: tr1 ++ tr2)
                      | .ok _ =>
                          (.ok (), .loadOrder orderID :: .loadPosition positionID
                            :: tr1 ++ tr2)

/-- CompleteOrderAndUpdatePositionUseCase.Execute, single-transaction
variant (src/unnamed/part_003 lines 40-87): identical loading and command
steps, but the uncommitted events of both aggregates are concatenated into
one list and submitted in one EventStore.Save call. -/
def executeCompleteSingleSave (env : SagaEnv)
    (orderID positionID : String) (swapResult : SwapResult) :
    Except String Unit × List Effect :=
  match env.loadOrder orderID with
  | .error e => (.error ("failed to load order: " ++ e), [.loadOrder orderID])
  | .ok o =>
      match o.completeOrder env.uuid1 env.now with
      | .error e => (.error ("failed to complete order: " ++ e), [.loadOrder orderID])
      | .ok o1 =>
          match env.loadPosition positionID with
          | .error e =>
              (.error ("failed to load position: " ++ e),
                [.loadOrder orderID, .loadPosition positionID])
          | .ok p =>
              let totalValue := swapResult.fromAmount
              let pnl : Rat := 0
              match p.addOrder orderID swapResult.toAmount totalValue pnl
                  env.uuid2 env.now with
              | .error e =>
                  (.error ("failed to update position: " ++ e),
                    [.loadOrder orderID, .loadPosition positionID])
              | .ok p1 =>
                  let allEvents := o1.changes.map DomainEvent.ord
                    ++ p1.changes.map DomainEvent.pos
                  match env.storeSave allEvents with
                  | .error e =>
                      (.error ("failed to save events: " ++ e),
                        [.loadOrder orderID, .loadPosition positionID,
                          .storeSave allEvents])
                  | .ok _ =>
                      (.ok (), [.loadOrder orderID, .loadPosition positionID,
                        .storeSave allEvents])

/-- Step 4, OrderSagaRefactored.handleSwapExecuted (src/unnamed/part_006
lines 27-87): idempotency check; extract position_id from the event
metadata, failing if absent; run the atomic completion use case; publish
PositionLinkedToOrder; mark processed. -/
def handleSwapExecuted (env : SagaEnv) (msg : SwapExecutedMsg) :
    Except String Unit × List Effect :=
  if msg.base.eventID ∈ env.processed then (.ok (), [])
  else
    match msg.base.metadata.lookup "position_id" with
    | none => (.error "position_id not found in event metadata", [])
    | some positionID =>
        let (res, tr) := executeCompleteOrderAndUpdatePosition env
          msg.base.aggregateID positionID
          { transactionHash := msg.transactionHash, fromAmount := msg.fromAmount
            toAmount := msg.toAmount, executedPrice := msg.executedPrice
            fees := msg.fees, slippage := msg.slippage }
        match res with
        | .error e => (.error e, tr)
        | .ok _ =>
            let m : PositionLinkedMsg :=
              { base := ⟨env.uuid3, msg.base.aggregateID, "Order",
                  "PositionLinkedToOrder", msg.base.version + 1,
                  msg.base.timestamp, []⟩
                positionID := positionID, orderID := msg.base.aggregateID }
            (.ok (), tr ++ [.publish "PositionLinkedToOrder" (.positionLinkedP m),
              .markProcessed msg.base.eventID "order-saga-step4"])

/-!  Helper lemmas about Apply and the version bookkeeping. -/

/-- Apply leaves the uncommitted list extended by exactly the applied
event. -/
theorem Order.applyEvt_changes (o : Order) (e : OrderEvent) :
    (o.applyEvt e).changes = o.changes ++ [e] := by
  cases e <;> rfl

/-- Every transition adopts the applied event's version. -/
theorem Order.applyEvt_version (o : Order) (e : OrderEvent) :
    (o.applyEvt e).version = e.ver := by
  cases e <;> rfl

/-- Applying one event whose version is the successor of the aggregate's
preserves the contiguity invariant. -/
theorem OrderInv.applyEvt {o : Order} {e : OrderEvent} (h : OrderInv o)
    (he : e.ver = o.version + 1) : OrderInv (o.applyEvt e) := by
  obtain ⟨h1, h2⟩ := h
  constructor
  · rw [Order.applyEvt_changes, List.map_append, h1, List.length_append]
    simp only [List.map_cons, List.map_nil, List.length_cons, List.length_nil]
    rw [List.range'_concat, he, h2]
    simp [Nat.add_comm]
  · rw [Order.applyEvt_version, he, h2, Order.applyEvt_changes]
    simp

/-- Shape of a successful command: it is either a no-op returning the state
unchanged, or it applies exactly one event versioned current + 1.  For
AcceptOrder, whose emitted version is hard-coded to 1, this holds when the
aggregate's version is 0. -/
theorem runCmd_shape {o : Order} {c : OrderCmd} {o' : Order}
    (h : runCmd o c = .ok o') (hc : c.isAccept = false ∨ o.version = 0) :
    o' = o ∨ ∃ e, OrderEvent.ver e = o.version + 1 ∧ o' = o.applyEvt e := by
  cases c
  case cmdAccept =>
    simp only [runCmd, Order.acceptOrder] at h
    split at h
    · simp at h
    split at h
    · simp at h
    split at h
    · simp at h
    injection h with h
    rcases hc with hc | hc
    · simp [OrderCmd.isAccept] at hc
    · exact Or.inr ⟨_, by simp [OrderEvent.ver, OrderEvent.base, hc], h.symm⟩
  case cmdQuotePrice =>
    simp only [runCmd, Order.quotePrice] at h
    split at h
    · simp at h
    split at h
    · simp at h
    injection h with h
    refine Or.inr ⟨_, ?_, h.symm⟩
    rfl
  case cmdStartSwap =>
    simp only [runCmd, Order.startSwapExecution] at h
    split at h
    · simp at h
    injection h with h
    refine Or.inr ⟨_, ?_, h.symm⟩
    rfl
  case cmdRecordSwap =>
    simp only [runCmd, Order.recordSwapExecution] at h
    split at h
    · simp at h
    injection h with h
    refine Or.inr ⟨_, ?_, h.symm⟩
    rfl
  case cmdComplete =>
    simp only [runCmd, Order.completeOrder] at h
    split at h
    · injection h with h; exact Or.inl h.symm
    split at h
    · simp at h
    injection h with h
    refine Or.inr ⟨_, ?_, h.symm⟩
    rfl
  case cmdFail =>
    simp only [runCmd, Order.failOrder] at h
    split at h
    · injection h with h; exact Or.inl h.symm
    split at h
    · simp at h
    injection h with h
    refine Or.inr ⟨_, ?_, h.symm⟩
    rfl
  case cmdInit =>
    simp only [runCmd, Order.initializeOrder] at h
    split at h
    · simp at h
    injection h with h
    refine Or.inr ⟨_, ?_, h.symm⟩
    rfl
  case cmdSetLimitPrice =>
    simp only [runCmd, Order.setLimitPrice] at h
    split at h
    · simp at h
    split at h
    · simp at h
    split at h
    · simp at h
    injection h with h
    refine Or.inr ⟨_, ?_, h.symm⟩
    rfl
  case cmdUpdate =>
    simp only [runCmd, Order.updateOrder] at h
    split at h
    · simp at h
    split at h
    · simp at h
    injection h with h
    refine Or.inr ⟨_, ?_, h.symm⟩
    rfl
  case cmdCancel =>
    simp only [runCmd, Order.cancelOrder] at h
    split at h
    · injection h with h; exact Or.inl h.symm
    split at h
    · simp at h
    split at h
    · simp at h
    injection h with h
    refine Or.inr ⟨_, ?_, h.symm⟩
    rfl
  case cmdCheckBalances =>
    simp only [runCmd, Order.checkBalances] at h
    split at h
    · simp at h
    split at h
    · injection h with h
      refine Or.inr ⟨_, ?_, h.symm⟩
      rfl
    · injection h with h
      refine Or.inr ⟨_, ?_, h.symm⟩
      rfl
  case cmdPlaceInBook =>
    simp only [runCmd, Order.placeInOrderBook] at h
    split at h
    · simp at h
    split at h
    · simp at h
    injection h with h
    refine Or.inr ⟨_, ?_, h.symm⟩
    rfl
  case cmdPartFill =>
    simp only [runCmd, Order.partFill] at h
    split at h
    · simp at h
    split at h
    · simp at h
    injection h with h
    refine Or.inr ⟨_, ?_, h.symm⟩
    rfl

/-- Running any number of non-accept commands preserves the contiguity
invariant. -/
theorem runCmds_inv {cmds : List OrderCmd} {o o' : Order}
    (hAcc : ∀ c ∈ cmds, c.isAccept = false) (hInv : OrderInv o)
    (h : runCmds o cmds = .ok o') : OrderInv o' := by
  induction cmds generalizing o with
  | nil =>
      simp only [runCmds, Except.ok.injEq] at h
      exact h ▸ hInv
  | cons c cs ih =>
      simp only [runCmds] at h
      cases hr : runCmd o c with
      | error e => rw [hr] at h; simp at h
      | ok o1 =>
          rw [hr] at h
          rcases runCmd_shape hr (Or.inl (hAcc c (by simp))) with heq | ⟨e, hv, heq⟩
          · subst heq
            exact ih (fun d hd => hAcc d (by simp [hd])) hInv h
          · subst heq
            exact ih (fun d hd => hAcc d (by simp [hd])) (hInv.applyEvt hv) h

/-- The fresh aggregate satisfies the contiguity invariant. -/
theorem orderInv_newOrder : OrderInv newOrder := by decide

/-- C2 (amended): for every sequence of successful commands starting from a
fresh instance in which AcceptOrder occurs only as the first command, the
versions of the emitted events form exactly the contiguous sequence 1..N
and the aggregate's Version field equals N.  (Unrestricted, the claim fails:
AcceptOrder validates only its inputs, never the current status, and its
emitted version is hard-coded to 1.) -/
theorem order_versions_contiguous (cmds : List OrderCmd) (o : Order)
    (hAcc : ∀ c ∈ cmds.tail, c.isAccept = false)
    (h : runCmds newOrder cmds = .ok o) :
    o.changes.map OrderEvent.ver = List.range' 1 o.changes.length ∧
    o.version = o.changes.length := by
  have hinv : OrderInv o := by
    cases cmds with
    | nil =>
        simp only [runCmds, Except.ok.injEq] at h
        exact h ▸ orderInv_newOrder
    | cons c cs =>
        simp only [runCmds] at h
        cases hr : runCmd newOrder c with
        | error e => rw [hr] at h; simp at h
        | ok o1 =>
            rw [hr] at h
            rcases runCmd_shape hr (Or.inr rfl) with heq | ⟨e, hv, heq⟩
            · subst heq
              exact runCmds_inv (by simpa using hAcc) orderInv_newOrder h
            · subst heq
              exact runCmds_inv (by simpa using hAcc) (orderInv_newOrder.applyEvt hv) h
  exact hinv

/-- The two-command run invoking AcceptOrder twice: the Go command validates
only its inputs and hard-codes version 1, so both invocations succeed. -/
def doubleAcceptCmds : List OrderCmd :=
  [.cmdAccept "o1" "u1" 100 "USDT" "BTC" "market" "e1" 0,
   .cmdAccept "o1" "u1" 100 "USDT" "BTC" "market" "e2" 1]

/-- C2 counterexample: a sequence of two successful commands (AcceptOrder
twice) whose emitted versions are 1, 1 — a repeat, not the contiguous
sequence 1..2 — and whose final Version field is 1, not 2. -/
theorem order_versions_counterexample :
    (runCmds newOrder doubleAcceptCmds).map (fun o => o.changes.map OrderEvent.ver)
      = .ok [1, 1] ∧
    (runCmds newOrder doubleAcceptCmds).map Order.version = .ok 1 ∧
    [1, 1] ≠ List.range' 1 2 ∧ (1 : Nat) ≠ 2 := by decide

/-- The happy-path market-order command sequence of spec §8 scenario 1. -/
def happyPathCmds : List OrderCmd :=
  [.cmdAccept "O1" "U1" 1000 "USDT" "BTC" "market" "e1" 0,
   .cmdQuotePrice 100000 10 "e2" 1,
   .cmdStartSwap "swap-O1" "e3" 2,
   .cmdRecordSwap "0xabc" 1000 10 100000 1 1 "e4" 3,
   .cmdComplete "e5" 4]

/-- The order resulting from the happy-path command sequence. -/
def happyPathOrder : Order :=
  match runCmds newOrder happyPathCmds with
  | .ok o => o
  | .error _ => newOrder

/-- Witness for the amended C2 theorem at the happy-path run. -/
theorem order_versions_contiguous_witness :
    runCmds newOrder happyPathCmds = .ok happyPathOrder ∧
    (happyPathOrder.changes.map OrderEvent.ver
        = List.range' 1 happyPathOrder.changes.length ∧
      happyPathOrder.version = happyPathOrder.changes.length) :=
  ⟨by decide, order_versions_contiguous happyPathCmds happyPathOrder
    (by decide) (by decide)⟩

/-- C3: invoking a terminal command on an aggregate already in the matching
terminal state — CompleteOrder on a completed order, FailOrder on a failed
order, ClosePosition on a closed position — returns success, emits no event
and leaves every field of the aggregate unchanged (the command returns the
very same state, uncommitted list included). -/
theorem terminal_commands_noop (o1 o2 : Order) (p : Position)
    (reason preason eid1 eid2 eid3 : String) (now1 now2 now3 : Nat)
    (h1 : o1.status = "completed") (h2 : o2.status = "failed")
    (h3 : p.status = "closed") :
    o1.completeOrder eid1 now1 = .ok o1 ∧
    o2.failOrder reason eid2 now2 = .ok o2 ∧
    p.closePosition preason eid3 now3 = .ok p := by
  refine ⟨?_, ?_, ?_⟩
  · simp [Order.completeOrder, h1]
  · simp [Order.failOrder, h2]
  · simp [Position.closePosition, h3]

/-- A completed order instance. -/
def completedOrder : Order :=
  { newOrder with id := "O1", userID := "U1", fromAmount := 1000
                  fromCurrency := "USDT", toCurrency := "BTC", toAmount := 10
                  executedPrice := 100, orderType := "market"
                  status := "completed", version := 5 }

/-- A failed order instance. -/
def failedOrder : Order :=
  { newOrder with id := "O2", userID := "U1", fromAmount := 1000
                  fromCurrency := "USDT", toCurrency := "BTC"
                  orderType := "market", status := "failed", version := 2 }

/-- A closed position instance. -/
def closedPosition : Position :=
  { newPosition with id := "P9", userID := "U1", status := "closed", version := 2 }

/-- Witness for C3 at concrete terminal aggregates. -/
theorem terminal_commands_noop_witness :
    completedOrder.completeOrder "e1" 9 = .ok completedOrder ∧
    failedOrder.failOrder "r" "e2" 9 = .ok failedOrder ∧
    closedPosition.closePosition "r" "e3" 9 = .ok closedPosition :=
  terminal_commands_noop completedOrder failedOrder closedPosition
    "r" "r" "e1" "e2" "e3" 9 9 9 rfl rfl rfl

/-- C8: AcceptOrder with from_amount below the minimum of 10 (non-positive
amounts included, since they are also below 10) or with an order type other
than market or limit returns a validation error; because the command errors
before Apply, no event is emitted and the aggregate is untouched; and saving
an aggregate whose uncommitted list is empty performs no event-log append at
all. -/
theorem acceptOrder_validation_rejects (o : Order) (env : SagaEnv)
    (orderID userID fromCurrency toCurrency orderType eid : String)
    (fromAmount : Rat) (now : Nat)
    (h : fromAmount < 10 ∨ (orderType ≠ "market" ∧ orderType ≠ "limit")) :
    (∃ msg, o.acceptOrder orderID userID fromAmount fromCurrency toCurrency
        orderType eid now = .error msg) ∧
    (o.changes = [] → saveOrderAggregate env o = (.ok (), [])) := by
  constructor
  · by_cases h0 : fromAmount ≤ 0
    · exact ⟨"from_amount must be positive", by simp [Order.acceptOrder, h0]⟩
    · by_cases h1 : fromAmount < 10
      · exact ⟨"minimum order amount is 10", by simp [Order.acceptOrder, h0, h1]⟩
      · rcases h with h | h
        · exact absurd h h1
        · exact ⟨"order_type must be market or limit",
            by simp [Order.acceptOrder, h0, h1, h]⟩
  · intro hc
    simp [saveOrderAggregate, hc]

/-- An environment of oracles for concrete evaluations: empty processed
set, failing external services, absent aggregates, appends that succeed. -/
def envIdle : SagaEnv :=
  { processed := [], price := .error "price service unavailable"
    loadOrder := fun _ => .error "aggregate not found"
    loadPosition := fun _ => .error "aggregate not found"
    storeSave := fun _ => .ok (), swap := .error "swap worker unavailable"
    uuid1 := "u-1", uuid2 := "u-2", uuid3 := "u-3", now := 7 }

/-- Witness for C8: AcceptOrder(from_amount = 5, market) on a fresh order
is rejected, and saving the untouched aggregate appends nothing. -/
theorem acceptOrder_validation_rejects_witness :
    (∃ msg, newOrder.acceptOrder "O1" "U1" 5 "USDT" "BTC" "market" "e1" 0
      = .error msg) ∧
    (newOrder.changes = [] → saveOrderAggregate envIdle newOrder = (.ok (), [])) :=
  acceptOrder_validation_rejects newOrder envIdle "O1" "U1" "USDT" "BTC"
    "market" "e1" 5 0 (Or.inl (by norm_num))

/-- C6 counterexample: CancelOrder on an order whose status is failed — not
pending — returns success (a no-op), not an InvalidTransition error, so the
claim that every non-pending status fails with an error is false. -/
theorem cancelOrder_counterexample :
    failedOrder.status ≠ "pending" ∧
    failedOrder.cancelOrder "user_requested" "e9" 5 = .ok failedOrder := by
  exact ⟨by decide, by decide⟩

/-- C6 (amended): CancelOrder is a no-op success on a failed order; it
fails with an error on completed and executing orders, emitting nothing;
in every other status (pending, and also the fresh empty status, which the
code does not guard) it succeeds, emits exactly one OrderCancelled event
versioned current + 1, and the resulting status is failed. -/
theorem cancelOrder_amended (o : Order) (reason eid : String) (now : Nat) :
    (o.status = "failed" → o.cancelOrder reason eid now = .ok o) ∧
    (o.status = "completed" →
      o.cancelOrder reason eid now = .error "cannot cancel completed order") ∧
    (o.status = "executing" →
      o.cancelOrder reason eid now = .error "cannot cancel executing order") ∧
    (o.status ≠ "failed" → o.status ≠ "completed" → o.status ≠ "executing" →
      o.cancelOrder reason eid now = .ok (o.applyEvt (.orderCancelled
          ⟨eid, o.id, "Order", "OrderCancelled", o.version + 1, now, []⟩ reason)) ∧
        (o.applyEvt (.orderCancelled
          ⟨eid, o.id, "Order", "OrderCancelled", o.version + 1, now, []⟩
          reason)).status = "failed") := by
  refine ⟨fun h => by simp [Order.cancelOrder, h], fun h => by simp [Order.cancelOrder, h],
    fun h => by simp [Order.cancelOrder, h], fun hf hc he => ⟨?_, rfl⟩⟩
  simp [Order.cancelOrder, hf, hc, he]

/-- A pending order instance. -/
def pendingOrder : Order :=
  { newOrder with id := "O1", userID := "U1", fromAmount := 1000
                  fromCurrency := "USDT", toCurrency := "BTC"
                  orderType := "market", status := "pending", version := 1 }

/-- Witness for the amended C6 theorem at a pending order. -/
theorem cancelOrder_amended_witness :
    pendingOrder.cancelOrder "user_requested" "e9" 5
      = .ok (pendingOrder.applyEvt (.orderCancelled
          ⟨"e9", pendingOrder.id, "Order", "OrderCancelled",
            pendingOrder.version + 1, 5, []⟩ "user_requested")) ∧
    (pendingOrder.applyEvt (.orderCancelled
        ⟨"e9", pendingOrder.id, "Order", "OrderCancelled",
          pendingOrder.version + 1, 5, []⟩ "user_requested")).status = "failed" :=
  (cancelOrder_amended pendingOrder "user_requested" "e9" 5).2.2.2
    (by decide) (by decide) (by decide)

/-- C4: for an event whose event_id is already in the processed-event set,
every saga step handler returns success with an empty side-effect trace —
no price call, no aggregate load, no command, no append, no publish, no
processed-set write. -/
theorem processed_event_handlers_skip (env : SagaEnv) (m1 : OrderAcceptedMsg)
    (m2 : PriceQuotedMsg) (m3 : PositionCreatedForOrderMsg) (m4 : SwapExecutedMsg)
    (h1 : m1.base.eventID ∈ env.processed) (h2 : m2.base.eventID ∈ env.processed)
    (h3 : m3.base.eventID ∈ env.processed) (h4 : m4.base.eventID ∈ env.processed) :
    handleOrderAccepted env m1 = (.ok (), []) ∧
    handlePriceQuoted env m2 = (.ok (), []) ∧
    handlePositionCreated env m3 = (.ok (), []) ∧
    handleSwapExecuted env m4 = (.ok (), []) := by
  refine ⟨?_, ?_, ?_, ?_⟩
  · simp [handleOrderAccepted, h1]
  · simp [handlePriceQuoted, h2]
  · simp [handlePositionCreated, h3]
  · simp [handleSwapExecuted, h4]

/-- An environment whose processed set already records four event ids. -/
def envProcessed : SagaEnv :=
  { envIdle with processed := ["E1", "E2", "E3", "E4"] }

/-- A concrete delivered OrderAccepted message. -/
def msgAccepted : OrderAcceptedMsg :=
  { base := ⟨"E1", "O1", "Order", "OrderAccepted", 1, 0, [("user_agent", "api-v1")]⟩
    userID := "U1", fromAmount := 1000, fromCurrency := "USDT"
    toCurrency := "BTC", orderType := "market" }

/-- A concrete delivered PriceQuoted message. -/
def msgPriceQuoted : PriceQuotedMsg :=
  { base := ⟨"E2", "O1", "Order", "PriceQuoted", 2, 1, []⟩
    price := 100000, toAmount := 10, quoteTimestamp := 1 }

/-- A concrete delivered PositionCreatedForOrder message. -/
def msgPositionCreated : PositionCreatedForOrderMsg :=
  { base := ⟨"E3", "O1", "Order", "PositionCreatedForOrder", 3, 1,
      [("position_id", "P1")]⟩
    positionID := "P1", userID := "U1" }

/-- A concrete delivered SwapExecuted message carrying position metadata. -/
def msgSwapExecuted : SwapExecutedMsg :=
  { base := ⟨"E4", "O1", "Order", "SwapExecuted", 4, 3, [("position_id", "P1")]⟩
    transactionHash := "0xabc", fromAmount := 1000, toAmount := 10
    executedPrice := 100, fees := 1, slippage := 1 }

/-- Witness for C4 at the four concrete already-processed messages. -/
theorem processed_event_handlers_skip_witness :
    handleOrderAccepted envProcessed msgAccepted = (.ok (), []) ∧
    handlePriceQuoted envProcessed msgPriceQuoted = (.ok (), []) ∧
    handlePositionCreated envProcessed msgPositionCreated = (.ok (), []) ∧
    handleSwapExecuted envProcessed msgSwapExecuted = (.ok (), []) :=
  processed_event_handlers_skip envProcessed msgAccepted msgPriceQuoted
    msgPositionCreated msgSwapExecuted
    (by decide) (by decide) (by decide) (by decide)

/-- A well-tagged position event deserializes through the repository's
switch, which recognizes all three position event types. -/
theorem repoDeserialize_ok (e : PositionEvent) (h : e.wellTagged) :
    repoDeserializePositionEvent e = .ok e := by
  cases e <;>
    (simp only [PositionEvent.wellTagged, PositionEvent.ctorType,
      PositionEvent.base] at h
     simp [repoDeserializePositionEvent, PositionEvent.base, h])

/-- Replaying a stream that contains an event the deserializer rejects
fails. -/
theorem replayPosition_error_of_bad (d : PositionEvent → Except String PositionEvent)
    (stream : List PositionEvent) (p : Position)
    (hbad : ∃ e ∈ stream, ∃ m, d e = .error m) :
    ∃ m, replayPosition d p stream = .error m := by
  induction stream generalizing p with
  | nil => simp at hbad
  | cons a l ih =>
      obtain ⟨e, he, m, hm⟩ := hbad
      rcases List.mem_cons.mp he with rfl | he
      · simp [replayPosition, hm]
      · cases hd : d a with
        | error msg =>
            exact ⟨"failed to deserialize event: " ++ msg,
              by simp [replayPosition, hd]⟩
        | ok ev =>
            simp only [replayPosition, hd]
            exact ih _ ⟨e, he, m, hm⟩

/-- Replaying a fully well-tagged stream through the repository's
deserializer always succeeds. -/
theorem replayPosition_repo_ok (stream : List PositionEvent) (p : Position)
    (h : ∀ e ∈ stream, e.wellTagged) :
    ∃ p', replayPosition repoDeserializePositionEvent p stream = .ok p' := by
  induction stream generalizing p with
  | nil => exact ⟨p, rfl⟩
  | cons a l ih =>
      have ha := repoDeserialize_ok a (h a (by simp))
      simp only [replayPosition, ha]
      exact ih _ (fun e he => h e (by simp [he]))

/-- C9: a position stream containing a well-tagged PositionUpdated event is
rejected by AggregateStore.LoadPositionAggregate, whose deserializer knows
only PositionCreated and PositionClosed, while PositionRepository.Get
succeeds on the very same stream. -/
theorem positionUpdated_breaks_aggregate_store_load (stream : List PositionEvent)
    (b : PBaseEvent) (oid : String) (ra tv pnl : Rat)
    (he : PositionEvent.positionUpdated b oid ra tv pnl ∈ stream)
    (htags : ∀ e ∈ stream, e.wellTagged) :
    (∃ msg, loadPositionAggregateFrom stream = .error msg) ∧
    (∃ p, positionRepositoryGetFrom stream = .ok p) := by
  have hne : stream ≠ [] := List.ne_nil_of_mem he
  have hempty : stream.isEmpty = false := by
    cases stream with
    | nil => exact absurd rfl hne
    | cons a l => rfl
  constructor
  · rw [loadPositionAggregateFrom, hempty]
    simp only [Bool.false_eq_true, if_false]
    refine replayPosition_error_of_bad _ stream newPosition
      ⟨_, he, ?_⟩
    have htag := htags _ he
    simp only [PositionEvent.wellTagged, PositionEvent.ctorType,
      PositionEvent.base] at htag
    exact ⟨"unknown event type: PositionUpdated",
      by simp [aggStoreDeserializePositionEvent, PositionEvent.base, htag]⟩
  · rw [positionRepositoryGetFrom, hempty]
    simp only [Bool.false_eq_true, if_false]
    exact replayPosition_repo_ok stream newPosition htags

/-- The position stream after an atomic completion has appended
PositionUpdated: PositionCreated(v1) then PositionUpdated(v2). -/
def posStreamWithUpdate : List PositionEvent :=
  [.positionCreated ⟨"pe1", "P1", "Position", "PositionCreated", 1, 0⟩ "U1" 0 "open",
   .positionUpdated ⟨"pe2", "P1", "Position", "PositionUpdated", 2, 9⟩ "O1" 10 1000 0]

/-- Witness for C9 at the concrete post-completion stream. -/
theorem positionUpdated_breaks_aggregate_store_load_witness :
    (∃ msg, loadPositionAggregateFrom posStreamWithUpdate = .error msg) ∧
    (∃ p, positionRepositoryGetFrom posStreamWithUpdate = .ok p) :=
  positionUpdated_breaks_aggregate_store_load posStreamWithUpdate
    ⟨"pe2", "P1", "Position", "PositionUpdated", 2, 9⟩ "O1" 10 1000 0
    (by decide) (by decide)

/-- C10: (a) the SwapExecuted event constructed by Order.RecordSwapExecution
carries empty metadata (the Go literal omits the Metadata field), so it has
no position_id key; (b) the step-4 handler rejects, before any side effect,
any SwapExecuted payload whose metadata lacks position_id — which is
therefore the fate of the aggregate-produced copy delivered via the outbox;
(c) only the synthetic SwapExecuted event that step 3 publishes directly to
the bus carries metadata position_id, so only it can drive order
completion. -/
theorem swapExecuted_metadata_gating
    (o : Order) (txHash : String) (fa ta ep fees sl : Rat) (eid : String)
    (now : Nat) (env : SagaEnv) (msg : SwapExecutedMsg)
    (msg3 : PositionCreatedForOrderMsg) (o3 : Order) (resp : SwapResponse)
    (ho : o.status = "executing")
    (hm : msg.base.eventID ∉ env.processed)
    (hmeta : msg.base.metadata.lookup "position_id" = none)
    (hm3 : msg3.base.eventID ∉ env.processed)
    (hld : env.loadOrder msg3.base.aggregateID = .ok o3)
    (hch3 : o3.changes = []) (hst3 : o3.status = "pending")
    (hsv : env.storeSave [DomainEvent.ord (.swapExecuting
      ⟨env.uuid1, o3.id, "Order", "SwapExecuting", o3.version + 1, env.now, []⟩
      ("swap-" ++ msg3.base.aggregateID))] = .ok ())
    (hswap : env.swap = .ok resp) :
    o.recordSwapExecution txHash fa ta ep fees sl eid now =
      .ok (o.applyEvt (.swapExecuted ⟨eid, o.id, "Order", "SwapExecuted",
        o.version + 1, now, []⟩ txHash fa ta ep fees sl)) ∧
    handleSwapExecuted env msg
      = (.error "position_id not found in event metadata", []) ∧
    handlePositionCreated env msg3 = (.ok (),
      [.loadOrder msg3.base.aggregateID,
       .storeSave [DomainEvent.ord (.swapExecuting ⟨env.uuid1, o3.id, "Order",
         "SwapExecuting", o3.version + 1, env.now, []⟩
         ("swap-" ++ msg3.base.aggregateID))],
       .execSwap ("swap-" ++ msg3.base.aggregateID),
       .loadOrder msg3.base.aggregateID,
       .publish "SwapExecuted" (.swapExecutedP
         { base := ⟨env.uuid3, msg3.base.aggregateID, "Order", "SwapExecuted",
             o3.version, o3.updatedAt, [("position_id", msg3.positionID)]⟩
           transactionHash := resp.transactionHash, fromAmount := o3.fromAmount
           toAmount := resp.toAmount, executedPrice := resp.executedPrice
           fees := resp.fees, slippage := resp.slippage }),
       .markProcessed msg3.base.eventID "order-saga-step3"]) := by
  refine ⟨by simp [Order.recordSwapExecution, ho], ?_, ?_⟩
  · simp [handleSwapExecuted, hm, hmeta]
  · simp [handlePositionCreated, saveOrderAggregate, Order.startSwapExecution,
      Order.recordSwapExecution, Order.applyEvt_changes, hm3, hld, hswap,
      hst3, hch3, hsv]

/-- An order in executing state (after SwapExecuting). -/
def executingOrder : Order :=
  { newOrder with id := "O1", userID := "U1", fromAmount := 1000
                  fromCurrency := "USDT", toCurrency := "BTC", toAmount := 10
                  executedPrice := 100, orderType := "market"
                  status := "executing", version := 3 }

/-- A successful swap-worker response. -/
def respSwap : SwapResponse :=
  { transactionHash := "0xabc", toAmount := 10, executedPrice := 100
    fees := 1, slippage := 1 }

/-- The aggregate-produced SwapExecuted copy as delivered via the outbox:
its metadata is empty, so it has no position_id. -/
def msgSwapNoMeta : SwapExecutedMsg :=
  { base := ⟨"E5", "O1", "Order", "SwapExecuted", 4, 3, []⟩
    transactionHash := "0xabc", fromAmount := 1000, toAmount := 10
    executedPrice := 100, fees := 1, slippage := 1 }

/-- An environment for a step-3 run: order O1 loads as pendingOrder, the
swap worker succeeds, appends succeed. -/
def envStep3 : SagaEnv :=
  { processed := [], price := .error "unused"
    loadOrder := fun id => if id = "O1" then .ok pendingOrder
      else .error "aggregate not found"
    loadPosition := fun _ => .error "unused"
    storeSave := fun _ => .ok (), swap := .ok respSwap
    uuid1 := "u-1", uuid2 := "u-2", uuid3 := "u-3", now := 7 }

/-- Witness for C10 at concrete inputs. -/
theorem swapExecuted_metadata_gating_witness :
    executingOrder.recordSwapExecution "0xabc" 1000 10 100 1 1 "e7" 8 =
      .ok (executingOrder.applyEvt (.swapExecuted ⟨"e7", executingOrder.id,
        "Order", "SwapExecuted", executingOrder.version + 1, 8, []⟩
        "0xabc" 1000 10 100 1 1)) ∧
    handleSwapExecuted envStep3 msgSwapNoMeta
      = (.error "position_id not found in event metadata", []) ∧
    handlePositionCreated envStep3 msgPositionCreated = (.ok (),
      [.loadOrder msgPositionCreated.base.aggregateID,
       .storeSave [DomainEvent.ord (.swapExecuting ⟨envStep3.uuid1,
         pendingOrder.id, "Order", "SwapExecuting", pendingOrder.version + 1,
         envStep3.now, []⟩ ("swap-" ++ msgPositionCreated.base.aggregateID))],
       .execSwap ("swap-" ++ msgPositionCreated.base.aggregateID),
       .loadOrder msgPositionCreated.base.aggregateID,
       .publish "SwapExecuted" (.swapExecutedP
         { base := ⟨envStep3.uuid3, msgPositionCreated.base.aggregateID,
             "Order", "SwapExecuted", pendingOrder.version,
             pendingOrder.updatedAt, [("position_id",
               msgPositionCreated.positionID)]⟩
           transactionHash := respSwap.transactionHash
           fromAmount := pendingOrder.fromAmount
           toAmount := respSwap.toAmount
           executedPrice := respSwap.executedPrice
           fees := respSwap.fees, slippage := respSwap.slippage }),
       .markProcessed msgPositionCreated.base.eventID "order-saga-step3"]) :=
  swapExecuted_metadata_gating executingOrder "0xabc" 1000 10 100 1 1 "e7" 8
    envStep3 msgSwapNoMeta msgPositionCreated pendingOrder respSwap
    (by decide) (by decide) (by decide) (by decide) (by decide) (by decide)
    (by decide) (by decide) (by decide)

/-- An open position with one committed event. -/
def openPosition : Position :=
  { newPosition with id := "P1", userID := "U1", status := "open", version := 1 }

/-- An environment for the atomic completion: order O1 loads as
executingOrder, position P1 as openPosition, every append succeeds. -/
def envAtomic : SagaEnv :=
  { processed := [], price := .error "unused"
    loadOrder := fun id => if id = "O1" then .ok executingOrder
      else .error "aggregate not found"
    loadPosition := fun id => if id = "P1" then .ok openPosition
      else .error "aggregate not found"
    storeSave := fun _ => .ok (), swap := .error "unused"
    uuid1 := "uc-1", uuid2 := "uc-2", uuid3 := "uc-3", now := 9 }

/-- The swap result of spec §8 scenario 1. -/
def swapResultHappy : SwapResult :=
  { transactionHash := "0xabc", fromAmount := 1000, toAmount := 10
    executedPrice := 100, fees := 1, slippage := 1 }

/-- C1: on a successful run at a concrete input, the wired aggregate-store
variant of the atomic completion use case performs TWO separate event-log
appends — one holding only the OrderCompleted event, one holding only the
PositionUpdated event — never a single append of the combined list; the
single-transaction variant of src/unnamed/part_003, by contrast, performs
exactly one append holding both aggregates' events. -/
theorem atomic_completion_two_appends :
    executeCompleteOrderAndUpdatePosition envAtomic "O1" "P1" swapResultHappy
      = (.ok (), [.loadOrder "O1", .loadPosition "P1",
          .storeSave [DomainEvent.ord (.orderCompleted
            ⟨"uc-1", "O1", "Order", "OrderCompleted", 4, 9, []⟩
            1000 10 100 "completed")],
          .storeSave [DomainEvent.pos (.positionUpdated
            ⟨"uc-2", "P1", "Position", "PositionUpdated", 2, 9⟩
            "O1" 10 1000 0)]]) ∧
    (executeCompleteOrderAndUpdatePosition envAtomic "O1" "P1"
      swapResultHappy).2.countP Effect.isStoreSave = 2 ∧
    executeCompleteSingleSave envAtomic "O1" "P1" swapResultHappy
      = (.ok (), [.loadOrder "O1", .loadPosition "P1",
          .storeSave [DomainEvent.ord (.orderCompleted
            ⟨"uc-1", "O1", "Order", "OrderCompleted", 4, 9, []⟩
            1000 10 100 "completed"),
          DomainEvent.pos (.positionUpdated
            ⟨"uc-2", "P1", "Position", "PositionUpdated", 2, 9⟩
            "O1" 10 1000 0)]]) ∧
    (executeCompleteSingleSave envAtomic "O1" "P1"
      swapResultHappy).2.countP Effect.isStoreSave = 1 := by decide

/-- An environment in which every event-log append fails with a unique
constraint violation, order O1 loads as pendingOrder, and the price service
answers 100000. -/
def envConflict : SagaEnv :=
  { processed := [], price := .ok 100000
    loadOrder := fun id => if id = "O1" then .ok pendingOrder
      else .error "aggregate not found"
    loadPosition := fun _ => .error "unused"
    storeSave := fun _ =>
      .error "pq: duplicate key value violates unique constraint"
    swap := .error "unused"
    uuid1 := "u-1", uuid2 := "u-2", uuid3 := "u-3", now := 7 }

/-- The conflicting environment with the price service down, exercising the
FailOrder compensation path. -/
def envConflictComp : SagaEnv :=
  { envConflict with price := .error "price service unavailable" }

/-- C5 counterexample: a handler invocation whose save fails with a unique
constraint violation (the VersionConflict and Duplicate signal) performs
exactly one aggregate load and exactly one append attempt and returns the
error at once — it never reloads or retries the command within the
invocation. -/
theorem handler_save_conflict_counterexample :
    handleOrderAccepted envConflictComp msgAccepted
      = (.error "failed to save events: pq: duplicate key value violates unique constraint",
        [.getPrice "USDT" "BTC", .loadOrder "O1",
         .storeSave [DomainEvent.ord (.orderFailed
           ⟨"u-1", "O1", "Order", "OrderFailed", 2, 7, []⟩
           "price_unavailable")]]) ∧
    (handleOrderAccepted envConflictComp msgAccepted).2.countP
      Effect.isStoreSave = 1 ∧
    (handleOrderAccepted envConflictComp msgAccepted).2.countP
      Effect.isLoadOrder = 1 := by decide

/-- C5 (amended): when the append of a handler's events fails — with
VersionConflict, Duplicate or any other error, since the code never
inspects the kind — the handler returns the error immediately after a
single load and a single append attempt, performing no local reload or
retry; the retry happens only through the bus, which nacks and requeues the
event for a fresh invocation. -/
theorem handler_save_failure_no_retry (env : SagaEnv) (msg : OrderAcceptedMsg)
    (p : Rat) (o : Order) (err : String)
    (hproc : msg.base.eventID ∉ env.processed)
    (hprice : env.price = .ok p)
    (hld : env.loadOrder msg.base.aggregateID = .ok o)
    (hch : o.changes = []) (hst : o.status = "pending")
    (hp : 0 < p) (hta : 0 < msg.fromAmount / p)
    (hsv : env.storeSave [DomainEvent.ord (.priceQuoted
      ⟨env.uuid1, o.id, "Order", "PriceQuoted", o.version + 1, env.now, []⟩
      p (msg.fromAmount / p))] = .error err) :
    handleOrderAccepted env msg = (.error ("failed to save events: " ++ err),
      [.getPrice msg.fromCurrency msg.toCurrency,
       .loadOrder msg.base.aggregateID,
       .storeSave [DomainEvent.ord (.priceQuoted ⟨env.uuid1, o.id, "Order",
         "PriceQuoted", o.version + 1, env.now, []⟩ p (msg.fromAmount / p))]]) := by
  have hcond : ¬(p ≤ 0 ∨ msg.fromAmount / p ≤ 0) := by
    push_neg
    exact ⟨hp, hta⟩
  simp [handleOrderAccepted, Order.quotePrice, saveOrderAggregate,
    Order.applyEvt_changes, hproc, hprice, hld, hch, hst, hcond, hsv]

/-- Witness for the amended C5 theorem at the conflicting environment. -/
theorem handler_save_failure_no_retry_witness :
    handleOrderAccepted envConflict msgAccepted
      = (.error ("failed to save events: "
          ++ "pq: duplicate key value violates unique constraint"),
        [.getPrice msgAccepted.fromCurrency msgAccepted.toCurrency,
         .loadOrder msgAccepted.base.aggregateID,
         .storeSave [DomainEvent.ord (.priceQuoted ⟨envConflict.uuid1,
           pendingOrder.id, "Order", "PriceQuoted", pendingOrder.version + 1,
           envConflict.now, []⟩ 100000 (msgAccepted.fromAmount / 100000))]]) :=
  handler_save_failure_no_retry envConflict msgAccepted 100000 pendingOrder
    "pq: duplicate key value violates unique constraint"
    (by decide) (by decide) (by decide) (by decide) (by decide)
    (by norm_num) (by norm_num [msgAccepted]) rfl

/-- C7: for a not-yet-processed OrderAccepted event, the step-1 handler
either — when the price service returns a price — loads the order, applies
QuotePrice(price, from_amount/price) and saves exactly that PriceQuoted
event, marking the event processed; or — when the price service fails —
runs the FailOrder compensation with reason price_unavailable, saving
exactly one OrderFailed event and no PriceQuoted event. -/
theorem handleOrderAccepted_step1 (env : SagaEnv) (msg : OrderAcceptedMsg)
    (hproc : msg.base.eventID ∉ env.processed) :
    (∀ p o, env.price = .ok p →
      env.loadOrder msg.base.aggregateID = .ok o →
      o.changes = [] → o.status = "pending" → 0 < p → 0 < msg.fromAmount / p →
      env.storeSave [DomainEvent.ord (.priceQuoted ⟨env.uuid1, o.id, "Order",
        "PriceQuoted", o.version + 1, env.now, []⟩ p (msg.fromAmount / p))]
        = .ok () →
      handleOrderAccepted env msg = (.ok (),
        [.getPrice msg.fromCurrency msg.toCurrency,
         .loadOrder msg.base.aggregateID,
         .storeSave [DomainEvent.ord (.priceQuoted ⟨env.uuid1, o.id, "Order",
           "PriceQuoted", o.version + 1, env.now, []⟩ p (msg.fromAmount / p))],
         .markProcessed msg.base.eventID "order-saga-step1"])) ∧
    (∀ perr o, env.price = .error perr →
      env.loadOrder msg.base.aggregateID = .ok o →
      o.changes = [] → o.status = "pending" →
      env.storeSave [DomainEvent.ord (.orderFailed ⟨env.uuid1, o.id, "Order",
        "OrderFailed", o.version + 1, env.now, []⟩ "price_unavailable")]
        = .ok () →
      handleOrderAccepted env msg = (.ok (),
        [.getPrice msg.fromCurrency msg.toCurrency,
         .loadOrder msg.base.aggregateID,
         .storeSave [DomainEvent.ord (.orderFailed ⟨env.uuid1, o.id, "Order",
           "OrderFailed", o.version + 1, env.now, []⟩ "price_unavailable")]])) := by
  constructor
  · intro p o hprice hld hch hst hp hta hsv
    have hcond : ¬(p ≤ 0 ∨ msg.fromAmount / p ≤ 0) := by
      push_neg
      exact ⟨hp, hta⟩
    simp [handleOrderAccepted, Order.quotePrice, saveOrderAggregate,
      Order.applyEvt_changes, hproc, hprice, hld, hch, hst, hcond, hsv]
  · intro perr o hprice hld hch hst hsv
    simp [handleOrderAccepted, compensateOrderFailed, Order.failOrder,
      saveOrderAggregate, Order.applyEvt_changes, hproc, hprice, hld, hch,
      hst, hsv]

/-- An environment for a successful step-1 run: the price service answers
100000, order O1 loads as pendingOrder, appends succeed. -/
def envStep1 : SagaEnv :=
  { processed := [], price := .ok 100000
    loadOrder := fun id => if id = "O1" then .ok pendingOrder
      else .error "aggregate not found"
    loadPosition := fun _ => .error "unused"
    storeSave := fun _ => .ok (), swap := .error "unused"
    uuid1 := "u-1", uuid2 := "u-2", uuid3 := "u-3", now := 7 }

/-- The step-1 environment with the price service down. -/
def envStep1Down : SagaEnv :=
  { envStep1 with price := .error "price service unavailable" }

/-- Witness for C7 at concrete environments: once with the price service
answering, once with it down. -/
theorem handleOrderAccepted_step1_witness :
    handleOrderAccepted envStep1 msgAccepted = (.ok (),
      [.getPrice msgAccepted.fromCurrency msgAccepted.toCurrency,
       .loadOrder msgAccepted.base.aggregateID,
       .storeSave [DomainEvent.ord (.priceQuoted ⟨envStep1.uuid1,
         pendingOrder.id, "Order", "PriceQuoted", pendingOrder.version + 1,
         envStep1.now, []⟩ 100000 (msgAccepted.fromAmount / 100000))],
       .markProcessed msgAccepted.base.eventID "order-saga-step1"]) ∧
    handleOrderAccepted envStep1Down msgAccepted = (.ok (),
      [.getPrice msgAccepted.fromCurrency msgAccepted.toCurrency,
       .loadOrder msgAccepted.base.aggregateID,
       .storeSave [DomainEvent.ord (.orderFailed ⟨envStep1Down.uuid1,
         pendingOrder.id, "Order", "OrderFailed", pendingOrder.version + 1,
         envStep1Down.now, []⟩ "price_unavailable")]]) :=
  ⟨(handleOrderAccepted_step1 envStep1 msgAccepted (by decide)).1
      100000 pendingOrder rfl (by decide) (by decide) (by decide)
      (by norm_num) (by norm_num [msgAccepted]) rfl,
    (handleOrderAccepted_step1 envStep1Down msgAccepted (by decide)).2
      "price service unavailable" pendingOrder rfl (by decide) (by decide)
      (by decide) rfl⟩
